import Mathlib

/-!
Shallow embedding of the parallel garbage-collection core of the MPL runtime
(work-stealing deque, hierarchical-heap copying collector, mutator/allocator
facade), together with theorems settling the specification claims.

Machine integers (`uint64_t` indices, `size_t` sizes) are modelled as `Nat`
with explicit `% 2 ^ 64` wrap-around where the C arithmetic can overflow.
External collaborators (chunk allocator, object-model decoding, policy hooks)
are modelled as oracle parameters, following the interface contracts.
-/

/-- Carrier bound of the `uint64_t` indices used by the deque: `2 ^ 64`,
written as an explicit numeral. -/
def U64 : Nat := 18446744073709551616

/-- Fixed capacity of the Chase-Lev deque (`#define CAP 64` in
`chase-lev-deque.c`).  The runtime allocates the backing `data` array with
exactly `CAP` slots, so `getSequenceLength(data) = CAP`. -/
def CAP : Nat := 64

/-- State of one Chase-Lev work-stealing deque: the `top` and `bot` indices
(`uint64_t` cells, owner writes `bot`, thieves CAS `top`) and the circular
`data` array of `CAP` objptr slots.  Objptr values are modelled as `Nat`. -/
structure Deque where
  top : Nat
  bot : Nat
  data : Fin CAP → Nat

/-- Shallow embedding of `ChaseLev_pushBot`: load `bot` (relaxed) and `top`
(acquire); if the unsigned size `bot - top` reaches the capacity of the data
array, fail; otherwise store the element at `data[bot % CAP]`, fence, and
store `bot + 1`.  The unsigned 64-bit subtraction `local_bot - local_top` is
`(bot + U64 - top) % U64` for in-range fields. -/
def ChaseLev_pushBot (d : Deque) (elem_to_push : Nat) : Bool × Deque :=
  let local_bot := d.bot
  let local_top := d.top
  let size := (local_bot + U64 - local_top) % U64
  if size ≥ CAP then
    (false, d)
  else
    (true,
      { d with
        data := Function.update d.data ⟨local_bot % CAP, Nat.mod_lt _ (by decide)⟩ elem_to_push,
        bot := (local_bot + 1) % U64 })

/-- Shallow embedding of `ChaseLev_tryPopBot`: speculatively store
`bot := bot - 1` (u64 decrement, wrapping at 0), fence, load `top`;
if `top ≤ bot` read the element at `data[bot % CAP]`; on the last element
(`top = bot`) CAS `top` and restore `bot`; otherwise restore `bot` and fail.
The model is sequential (no interleaved thief), so the CAS on `top` always
finds the previously loaded value and succeeds. -/
def ChaseLev_tryPopBot (d : Deque) (fail_value : Nat) : Nat × Deque :=
  let local_bot := (d.bot + (U64 - 1)) % U64
  let local_top := d.top
  if local_top ≤ local_bot then
    let elem := d.data ⟨local_bot % CAP, Nat.mod_lt _ (by decide)⟩
    if local_top = local_bot then
      (elem, { d with top := (local_top + 1) % U64, bot := (local_bot + 1) % U64 })
    else
      (elem, { d with bot := local_bot })
  else
    (fail_value, { d with bot := (local_bot + 1) % U64 })

/-- Shallow embedding of `ChaseLev_tryPopTop` (sequential: the CAS on `top`
succeeds, since no other thread moved `top` between the load and the CAS). -/
def ChaseLev_tryPopTop (d : Deque) (fail_value : Nat) : Nat × Deque :=
  let local_top := d.top
  let local_bot := d.bot
  if local_top < local_bot then
    let elem := d.data ⟨local_top % CAP, Nat.mod_lt _ (by decide)⟩
    (elem, { d with top := (local_top + 1) % U64 })
  else
    (fail_value, d)

/-- Snapshot of the index pair `(top, bot)` of a deque, as observable by a
concurrently sampling thief. -/
structure DequeIdx where
  top : Nat
  bot : Nat
deriving DecidableEq, Repr

/-- Shallow embedding of `ChaseLev_setDepth` as a sequence of observable index
states: the initial state, the state after the first seq-cst store, and the
final state.  Returns `none` on the fatal `DIE` when `top ≠ bot`.  If the
desired depth equals `bot` no store is performed; if it is smaller, `bot` is
stored first and then `top`; otherwise `top` is stored first and then `bot`
(mirroring the store order in the source). -/
def ChaseLev_setDepth (top bot desired_depth : Nat) : Option (List DequeIdx) :=
  if top ≠ bot then
    none
  else if desired_depth = bot then
    some [⟨top, bot⟩]
  else if desired_depth < bot then
    some [⟨top, bot⟩, ⟨top, desired_depth⟩, ⟨desired_depth, desired_depth⟩]
  else
    some [⟨top, bot⟩, ⟨desired_depth, bot⟩, ⟨desired_depth, desired_depth⟩]

/-! Object model and `computeObjectCopyParameters`. -/

/-- Mutable part of a stack object that `computeObjectCopyParameters` reads and
writes: the `reserved` and `used` byte counts. -/
structure GCStack where
  reserved : Nat
  used : Nat
deriving DecidableEq, Repr

/-- Header-decoded payload of a heap object, as produced by the external
`splitHeader`: a normal object (non-pointer bytes and pointer count), a
sequence, a stack, or a weak. -/
inductive ObjPayload where
  | normal (bytesNonObjptrs numObjptrs : Nat)
  | sequence (seqLength bytesNonObjptrs numObjptrs : Nat)
  | stack (st : GCStack)
  | weak
deriving DecidableEq, Repr

/-- Object type tag returned by `splitHeader`. -/
inductive GC_objectTypeTag where
  | NORMAL_TAG
  | SEQUENCE_TAG
  | STACK_TAG
  | WEAK_TAG
deriving DecidableEq, Repr

/-- External object-model collaborators imported by the collector: metadata
sizes, the objptr width, `sizeof(struct GC_stack)`, the sequence body sizing
function, and the stack shrink hint `sizeofStackShrinkReserved`. -/
structure ObjModel where
  GC_NORMAL_METADATA_SIZE : Nat
  GC_SEQUENCE_METADATA_SIZE : Nat
  GC_STACK_METADATA_SIZE : Nat
  OBJPTR_SIZE : Nat
  sizeofGCStackStruct : Nat
  sizeofSequenceNoMetaData : Nat → Nat → Nat → Nat
  sizeofStackShrinkReserved : GCStack → Bool → Nat

/-- Result record of `computeObjectCopyParameters`: the tag and the three
sizes (each already incremented by the metadata size, as in the source). -/
structure CopyParams where
  tag : GC_objectTypeTag
  objectSize : Nat
  copySize : Nat
  metaDataSize : Nat
deriving DecidableEq, Repr

/-- Shallow embedding of `computeObjectCopyParameters`.  Returns the computed
sizes together with the (possibly shrunk) object: for stacks, if
`sizeofStackShrinkReserved` returns a smaller reservation, `stack->reserved`
is updated in place before sizing.  Returns `none` for the fatal `die` on
`WEAK_TAG`.  `isCurrentStack` models the external comparison
`getStackCurrent(s) == stack`. -/
def computeObjectCopyParameters (M : ObjModel) (isCurrentStack : Bool)
    (o : ObjPayload) : Option (CopyParams × ObjPayload) :=
  match o with
  | .normal bytesNonObjptrs numObjptrs =>
      let objectSize := bytesNonObjptrs + numObjptrs * M.OBJPTR_SIZE
      some ({ tag := .NORMAL_TAG,
              objectSize := objectSize + M.GC_NORMAL_METADATA_SIZE,
              copySize := objectSize + M.GC_NORMAL_METADATA_SIZE,
              metaDataSize := M.GC_NORMAL_METADATA_SIZE }, o)
  | .sequence seqLength bytesNonObjptrs numObjptrs =>
      let objectSize := M.sizeofSequenceNoMetaData seqLength bytesNonObjptrs numObjptrs
      some ({ tag := .SEQUENCE_TAG,
              objectSize := objectSize + M.GC_SEQUENCE_METADATA_SIZE,
              copySize := objectSize + M.GC_SEQUENCE_METADATA_SIZE,
              metaDataSize := M.GC_SEQUENCE_METADATA_SIZE }, o)
  | .stack st =>
      let reservedNew := M.sizeofStackShrinkReserved st isCurrentStack
      let st2 := if reservedNew < st.reserved then { st with reserved := reservedNew } else st
      some ({ tag := .STACK_TAG,
              objectSize := M.sizeofGCStackStruct + st2.reserved + M.GC_STACK_METADATA_SIZE,
              copySize := M.sizeofGCStackStruct + st2.used + M.GC_STACK_METADATA_SIZE,
              metaDataSize := M.GC_STACK_METADATA_SIZE }, .stack st2)
  | .weak => none

/-! Weak fixup after a Cheney copy (`updateWeaksForCheneyCopy`). -/

/-- Sentinel header marking a forwarded object (opaque runtime constant,
modelled as a distinguished value). -/
def GC_FORWARDED : Nat := 0

/-- Sentinel header written over a weak object whose referent died. -/
def GC_WEAK_GONE_HEADER : Nat := 2

/-- Bogus objptr sentinel. -/
def BOGUS_OBJPTR : Nat := 1

/-- State visible to the weak-fixup pass.  Weak objects are identified by a
`Nat` id; `chain` is the `s->weaks` linked chain, `weakObjptr` and
`weakHeader` are the weaks' target slot and own header, and `refHeader` /
`refFwd` give the referent's header and the forwarded target stored in its
first word (`*(objptr*)p`).  Referent memory and weak-object memory are
disjoint in the model (a weak is never the referent of another weak). -/
structure WeakGCState where
  chain : List Nat
  weakObjptr : Nat → Nat
  weakHeader : Nat → Nat
  refHeader : Nat → Nat
  refFwd : Nat → Nat

/-- Body of the loop of `updateWeaksForCheneyCopy` for one weak `w`: if the
referent's header is `GC_FORWARDED`, redirect `w->objptr` to the forwarded
target; otherwise overwrite the weak's own header with `GC_WEAK_GONE_HEADER`
and clear `w->objptr` to `BOGUS_OBJPTR`. -/
def updateWeakStep (s : WeakGCState) (w : Nat) : WeakGCState :=
  if s.refHeader (s.weakObjptr w) = GC_FORWARDED then
    { s with weakObjptr := Function.update s.weakObjptr w (s.refFwd (s.weakObjptr w)) }
  else
    { s with
      weakHeader := Function.update s.weakHeader w GC_WEAK_GONE_HEADER,
      weakObjptr := Function.update s.weakObjptr w BOGUS_OBJPTR }

/-- Traversal of the weak chain (`for (w = s->weaks; w != NULL; w = w->link)`). -/
def updateWeaksLoop (s : WeakGCState) (l : List Nat) : WeakGCState :=
  l.foldl updateWeakStep s

/-- Shallow embedding of `updateWeaksForCheneyCopy`: process every weak on the
chain, then reset the chain to empty (`s->weaks = NULL`). -/
def updateWeaksForCheneyCopy (s : WeakGCState) : WeakGCState :=
  { updateWeaksLoop s s.chain with chain := [] }

/-! Forwarding engine (`forwardHHObjptr`) over a model of the hierarchical
heap: objects keyed by objptr, chunks keyed by chunk id, from-space level
lists, and the per-collection to-space lists. -/

/-- Block size of the chunk allocator (`HM_BLOCK_SIZE`, opaque constant). -/
def HM_BLOCK_SIZE : Nat := 4096

/-- Slop constant `GC_HEAP_LIMIT_SLOP` (opaque runtime constant). -/
def GC_HEAP_LIMIT_SLOP : Nat := 512

/-- Sentinel `containingHH` value marking a to-space chunk list during a copy
collection (`COPY_OBJECT_HH_VALUE`, opaque sentinel). -/
def COPY_OBJECT_HH_VALUE : Nat := 3

/-- Information the forwarding engine queries about one objptr, via the
external collaborators `isObjptr`, `isObjptrInRootHeap`, `HM_getObjptrInfo` /
`HM_getObjptrLevel`, `HM_isObjptrInToSpace`, `hasFwdPtr` / `getFwdPtr`, and
`HM_getChunkOf`. -/
structure HObj where
  isObjptr : Bool
  inRootHeap : Bool
  level : Nat
  inToSpace : Bool
  fwd : Option Nat
  chunkId : Nat
  payload : ObjPayload

/-- Chunk list used as a to-space level during collection (`HM_newChunkList`
with the `COPY_OBJECT_HH_VALUE` sentinel): the chunk ids it owns in order,
the `isInToSpace` flag, the containing-HH backref and the list level. -/
structure ToSpaceList where
  chunks : List Nat
  isInToSpace : Bool
  containingHH : Nat
  listLevel : Nat
deriving DecidableEq, Repr

/-- Mutable heap-side state threaded through the forwarding engine: the object
map, intrinsic chunk attributes (`mightContainMultipleObjects`, size, base
address, frontier, limit), the from-space level lists of the hierarchical
heap, the to-space array `args->toSpace`, a fresh-id counter for the chunk
allocator, and the statistics counters carried in `ForwardHHObjptrArgs`. -/
structure FwdState where
  heap : Nat → HObj
  chunkMulti : Nat → Bool
  chunkSizeOf : Nat → Nat
  chunkBase : Nat → Nat
  chunkFrontier : Nat → Nat
  chunkLimit : Nat → Nat
  hhLevel : Nat → List Nat
  toSpace : Nat → Option ToSpaceList
  nextChunkId : Nat
  bytesCopied : Nat
  objectsCopied : Nat
  stacksCopied : Nat
  bytesMoved : Nat
  objectsMoved : Nat

/-- Per-invocation arguments of the forwarding engine: the collection range
`[minLevel, maxLevel]` and the promotion target `toLevel`
(`HM_HH_INVALID_LEVEL` is modelled as `none`, meaning a collection). -/
structure FwdArgs where
  minLevel : Nat
  maxLevel : Nat
  toLevel : Option Nat
deriving DecidableEq, Repr

/-- Fatal aborts the forwarding engine can raise: entanglement
(`level > maxLevel`) and the unsupported `WEAK_TAG` case.  The model chunk
allocator is total, so the out-of-space `DIE` does not arise. -/
inductive GCFatal where
  | entanglement
  | weakTagUnsupported
deriving DecidableEq, Repr

/-- Model of the external `HM_allocateChunk`: append a fresh chunk of the
requested size to the list.  Fresh chunks might contain multiple objects; the
fresh chunk's base, frontier and limit are whatever the (unconstrained)
allocator oracle maps its id to.  The model allocator always succeeds. -/
def allocateChunk (st : FwdState) (tl : ToSpaceList) (bytes : Nat) :
    FwdState × ToSpaceList :=
  let cid := st.nextChunkId
  ({ st with
      nextChunkId := cid + 1,
      chunkMulti := Function.update st.chunkMulti cid true,
      chunkSizeOf := Function.update st.chunkSizeOf cid bytes },
   { tl with chunks := tl.chunks ++ [cid] })

/-- Model of the external `HM_unlinkChunk`: remove the chunk from its
containing list; on the paths modelled here the containing list is one of the
from-space level lists of the hierarchical heap. -/
def unlinkChunk (st : FwdState) (cid : Nat) : FwdState :=
  { st with hhLevel := fun l => (st.hhLevel l).filter (fun c => c ≠ cid) }

/-- Forwarding-chain chase (`while (hasFwdPtr(p)) { op = getFwdPtr(p); ... }`)
with an explicit fuel bound.  The heap invariant keeps chains short (a
forwarded target is itself never forwarded), so any fuel suffices on
well-formed states; on an objptr without a forwarding pointer the chase is the
identity for every fuel. -/
def chaseFwd (heap : Nat → HObj) : Nat → Nat → Nat
  | 0, op => op
  | fuel + 1, op =>
    match (heap op).fwd with
    | none => op
    | some op2 => chaseFwd heap fuel op2

/-- Shallow embedding of `copyObject`: take the last chunk of the target list;
if its free space is below `objectSize` or its frontier has crossed the first
block boundary, allocate a new chunk of at least `objectSize`; copy `copySize`
bytes to the frontier (object contents are not modelled beyond the heap-map
update done by the caller); advance the frontier by `objectSize`; if the new
frontier crossed the block boundary, pre-allocate a fresh chunk of
`GC_HEAP_LIMIT_SLOP` bytes.  Returns the copy pointer, the chunk that received
the object, and the updated state and target list. -/
def copyObject (st : FwdState) (tl : ToSpaceList) (objectSize copySize : Nat) :
    Nat × Nat × FwdState × ToSpaceList :=
  let chunk0 := tl.chunks.getLastD 0
  let frontier0 := st.chunkFrontier chunk0
  let limit0 := st.chunkLimit chunk0
  let mustExtend :=
    decide (limit0 - frontier0 < objectSize) ||
    decide (frontier0 ≥ st.chunkBase chunk0 + HM_BLOCK_SIZE)
  let step1 : FwdState × ToSpaceList × Nat :=
    if mustExtend then
      let p := allocateChunk st tl objectSize
      (p.1, p.2, p.2.chunks.getLastD 0)
    else
      (st, tl, chunk0)
  let st1 := step1.1
  let tl1 := step1.2.1
  let chunk1 := step1.2.2
  let frontier1 := st1.chunkFrontier chunk1
  -- GC_memcpy(p, frontier, copySize)
  let _ := copySize
  let newFrontier := frontier1 + objectSize
  let st2 := { st1 with chunkFrontier := Function.update st1.chunkFrontier chunk1 newFrontier }
  let step2 : FwdState × ToSpaceList :=
    if newFrontier ≥ st2.chunkBase chunk1 + HM_BLOCK_SIZE then
      allocateChunk st2 tl1 GC_HEAP_LIMIT_SLOP
    else
      (st2, tl1)
  (frontier1, chunk1, step2.1, step2.2)

/-- Target chunk-list selection of `forwardHHObjptr`: `args->toSpace[level]`,
lazily created with `HM_newChunkList(COPY_OBJECT_HH_VALUE, level)`, an initial
chunk of at least `objectBytes`, and `isInToSpace = TRUE`. -/
def getOrCreateToSpaceLevel (st : FwdState) (level objectBytes : Nat) :
    FwdState × ToSpaceList :=
  match st.toSpace level with
  | some tl => (st, tl)
  | none =>
    let tl0 : ToSpaceList :=
      { chunks := [], isInToSpace := false,
        containingHH := COPY_OBJECT_HH_VALUE, listLevel := level }
    let p := allocateChunk st tl0 objectBytes
    let tl1 := { p.2 with isInToSpace := true }
    ({ p.1 with toSpace := Function.update p.1.toSpace level (some tl1) }, tl1)

/-- Single-object chunk fast path of `forwardHHObjptr`: unlink the chunk from
its containing (from-space) list, append it to the target to-space list, then
allocate a fresh trailing chunk of `GC_HEAP_LIMIT_SLOP` bytes; account
`bytesMoved += copyBytes` and `objectsMoved++`.  No forwarding pointer is
installed. -/
def moveSingleObjectChunk (st : FwdState) (tgt : ToSpaceList)
    (level cid copyBytes : Nat) : FwdState :=
  let st5 := unlinkChunk st cid
  let tgt5 := { tgt with chunks := tgt.chunks ++ [cid] }
  let p := allocateChunk st5 tgt5 GC_HEAP_LIMIT_SLOP
  { p.1 with
    toSpace := Function.update p.1.toSpace level (some p.2),
    bytesMoved := p.1.bytesMoved + copyBytes,
    objectsMoved := p.1.objectsMoved + 1 }

/-- Copy path of `forwardHHObjptr`: `copyObject`, account `bytesCopied` and
`objectsCopied`, install the forwarding pointer in the old object's metadata,
and return the forwarded address (the new `*opp`).  The heap map gains the
to-space image at `copyPointer + metaDataSize`. -/
def copyAndInstallFwdPtr (st : FwdState) (tgt : ToSpaceList)
    (level op2 : Nat) (cp : CopyParams) (payload2 : ObjPayload) :
    Nat × FwdState :=
  let r := copyObject st tgt cp.objectSize cp.copySize
  let copyPointer := r.1
  let dstChunk := r.2.1
  let st5 := r.2.2.1
  let tgt5 := r.2.2.2
  let newOp := copyPointer + cp.metaDataSize
  (newOp,
    { st5 with
      toSpace := Function.update st5.toSpace level (some tgt5),
      bytesCopied := st5.bytesCopied + cp.copySize,
      objectsCopied := st5.objectsCopied + 1,
      heap := fun q =>
        if q = op2 then { st5.heap op2 with fwd := some newOp }
        else if q = newOp then
          { isObjptr := true, inRootHeap := false, level := level,
            inToSpace := true, fwd := none, chunkId := dstChunk,
            payload := payload2 }
        else st5.heap q })

/-- Forwarding phase of `forwardHHObjptr` (the final `else` of the source),
applied to the chased objptr `op2`: compute the copy parameters (fatal on
`WEAK_TAG`), bump `stacksCopied` on `STACK_TAG`, write the possibly shrunk
payload back, select or create the target to-space list, then either relocate
the single-object chunk (leaving `*opp = op2`) or copy the object and return
the forwarded address. -/
def forwardHHObjptr_forwardPhase (M : ObjModel) (isCurrentStack : Bool)
    (st : FwdState) (op2 : Nat) : Except GCFatal (Nat × FwdState) :=
  let o2 := st.heap op2
  match computeObjectCopyParameters M isCurrentStack o2.payload with
  | none => .error .weakTagUnsupported
  | some (cp, payload2) =>
    let st3 : FwdState :=
      { st with
        stacksCopied :=
          if cp.tag = .STACK_TAG then st.stacksCopied + 1 else st.stacksCopied,
        heap := Function.update st.heap op2 { o2 with payload := payload2 } }
    let step := getOrCreateToSpaceLevel st3 o2.level cp.objectSize
    if step.1.chunkMulti o2.chunkId = false then
      .ok (op2, moveSingleObjectChunk step.1 step.2 o2.level o2.chunkId cp.copySize)
    else
      let q := copyAndInstallFwdPtr step.1 step.2 o2.level op2 cp payload2
      .ok (q.1, q.2)

/-- Shallow embedding of `forwardHHObjptr` acting on the slot value
`op = *opp`; the result carries the new value of `*opp` together with the
updated state, or a fatal abort.  `fuel` bounds the forwarding-chain chase and
`isCurrentStack` models the external test `getStackCurrent(s) == stack` used
by the size computation. -/
def forwardHHObjptr (M : ObjModel) (args : FwdArgs) (fuel : Nat)
    (isCurrentStack : Bool) (st : FwdState) (op : Nat) :
    Except GCFatal (Nat × FwdState) :=
  let o := st.heap op
  if !o.isObjptr || o.inRootHeap then
    -- does not point to an HH objptr, so not in scope for collection
    .ok (op, st)
  else if o.level > args.maxLevel then
    -- entanglement detected
    .error .entanglement
  else if o.level > args.maxLevel || o.level < args.minLevel then
    -- cannot forward any object below minLevel
    .ok (op, st)
  else
    let op2 := chaseFwd st.heap fuel op
    if (st.heap op2).level < args.minLevel then
      .ok (op2, st)
    else if (st.heap op2).inToSpace then
      .ok (op2, st)
    else
      forwardHHObjptr_forwardPhase M isCurrentStack st op2

/-! Mutator/allocator facade (`HM_ensureHierarchicalHeapAssurances`). -/

/-- Chunk data the facade reads through `hh->lastAllocatedChunk`: the chunk's
base address, frontier, limit, and the level of its owning chunk list
(`HM_getChunkListLevel(HM_getLevelHead(chunk))`). -/
structure HHChunk where
  base : Nat
  frontier : Nat
  limit : Nat
  listLevel : Nat
deriving DecidableEq, Repr

/-- Hierarchical-heap record as seen by the facade: the current level, the
last allocated chunk (`none` models NULL), and the allocation counter reset
after a collection. -/
structure HierHeap where
  hlevel : Nat
  lastAllocatedChunk : Option HHChunk
  bytesAllocatedSinceLastCollection : Nat
deriving DecidableEq, Repr

/-- Mutator-visible `GC_state` fields the facade manipulates: the published
frontier, limit-plus-slop and limit (each `none` models a NULL pointer), and
the current hierarchical heap. -/
structure MutatorState where
  frontier : Option Nat
  limitPlusSlop : Option Nat
  limit : Option Nat
  hh : HierHeap
deriving DecidableEq, Repr

/-- External collaborators of `HM_ensureHierarchicalHeapAssurances`: the
mutator stack predicate sampled at entry, the stack growth size
`sizeofStackWithMetaData(s, sizeofStackGrowReserved(s, getStackCurrent(s)))`,
the collection policy `HM_HH_desiredCollectionScope`, the effect of
`HM_HHC_collectLocal` on the hierarchical heap (the source call site passes
only the desired scope, so the model takes only that argument), the effect of
`HM_HH_extend` (`none` models returning false), and the effect of
`growStackCurrent` on the published frontier. -/
structure EnsureOracles where
  invariantForMutatorStack : Bool
  stackBytes : Nat
  desiredScope : Nat
  collectLocal : Nat → HierHeap → HierHeap
  extend : HierHeap → Nat → Option HierHeap
  growStackFrontier : Nat → Nat

/-- Fatal aborts of the facade: the `DIE` when `limitPlusSlop < frontier` and
the `DIE` when `HM_HH_extend` fails. -/
inductive EnsureFatal where
  | limitBelowFrontier
  | outOfSpace
deriving DecidableEq, Repr

/-- Result of the facade: the recorded `HM_HHC_collectLocal` invocation (the
actual argument passed when one happened, `none` when the collector was not
invoked — the source call site passes the desired scope as its only actual
argument, so only that value can be recorded), next to the final mutator state
or the fatal abort. -/
structure EnsureResult where
  collectCalledWith : Option Nat
  outcome : Except EnsureFatal MutatorState
deriving Repr

/-- Model of the external `HM_HH_updateValues`: write the published frontier
back into the hierarchical heap's last allocated chunk. -/
def HM_HH_updateValues (hh : HierHeap) (frontier : Option Nat) : HierHeap :=
  { hh with
    lastAllocatedChunk :=
      hh.lastAllocatedChunk.map (fun c => { c with frontier := frontier.getD c.frontier }) }

/-- Republish the mutator frontier and limits from the hierarchical heap's
last allocated chunk (`HM_HH_getFrontier` / `HM_HH_getLimit`), or NULL
pointers when the heap has no chunk. -/
def publishFromHH (s : MutatorState) (hh : HierHeap) : MutatorState :=
  { s with
    hh := hh,
    frontier := hh.lastAllocatedChunk.map (fun c => c.frontier),
    limitPlusSlop := hh.lastAllocatedChunk.map (fun c => c.limit),
    limit := hh.lastAllocatedChunk.map (fun c => c.limit - GC_HEAP_LIMIT_SLOP) }

/-- Extension condition shared by the stack-growth and bytes-requested
branches of the facade: last chunk NULL, or (when `ensureCurrentLevel`) the
last chunk's list level differs from the heap level, or the chunk frontier
crossed the first block boundary, or fewer than `bytes` bytes remain between
the published frontier and limit-plus-slop. -/
def needExtend (s : MutatorState) (ensureCurrentLevel : Bool) (bytes : Nat) : Bool :=
  match s.hh.lastAllocatedChunk with
  | none => true
  | some c =>
      (ensureCurrentLevel && decide (c.listLevel ≠ s.hh.hlevel)) ||
      decide (c.frontier ≥ c.base + HM_BLOCK_SIZE) ||
      decide (s.limitPlusSlop.getD 0 - s.frontier.getD 0 < bytes)

/-- Collection branch of `HM_ensureHierarchicalHeapAssurances` (the body of
`if (forceGC || desiredScope <= hh->level)`): invoke
`HM_HHC_collectLocal(desiredScope)` — the source passes only this one
argument — then zero `bytesAllocatedSinceLastCollection` and republish the
mutator frontier and limits from `hh->lastAllocatedChunk`, or set them to NULL
when everything was collected.  Returns the new state together with the
recorded collector invocation. -/
def collectBranch (O : EnsureOracles) (forceGC : Bool) (s : MutatorState) :
    MutatorState × Option Nat :=
  if forceGC || decide (O.desiredScope ≤ s.hh.hlevel) then
    let hh2 := O.collectLocal O.desiredScope s.hh
    let hh3 := { hh2 with bytesAllocatedSinceLastCollection := 0 }
    let s2 :=
      match hh3.lastAllocatedChunk with
      | none =>
          { s with hh := hh3, frontier := none, limitPlusSlop := none, limit := none }
      | some c =>
          { s with
            hh := hh3,
            frontier := some c.frontier,
            limitPlusSlop := some c.limit,
            limit := some (c.limit - GC_HEAP_LIMIT_SLOP) }
    (s2, some O.desiredScope)
  else
    (s, none)

/-- Shallow embedding of `HM_ensureHierarchicalHeapAssurances`: sample the
mutator stack predicate, sync the heap with the published frontier, check the
`limitPlusSlop < frontier` fatal, run the collection branch, then the
stack-growth branch (extend if needed, republish, grow the stack, resync), and
finally extend for `bytesRequested` if the extension condition holds. -/
def HM_ensureHierarchicalHeapAssurances (O : EnsureOracles) (forceGC : Bool)
    (bytesRequested : Nat) (ensureCurrentLevel : Bool) (s0 : MutatorState) :
    EnsureResult :=
  let growStack := !O.invariantForMutatorStack
  let stackBytes := if growStack then O.stackBytes else 0
  let s1 := { s0 with hh := HM_HH_updateValues s0.hh s0.frontier }
  if s1.limitPlusSlop.getD 0 < s1.frontier.getD 0 then
    { collectCalledWith := none, outcome := .error .limitBelowFrontier }
  else
    let branch := collectBranch O forceGC s1
    let s2 := branch.1
    let afterGrow : Except EnsureFatal MutatorState :=
      if growStack then
        let afterExtend : Except EnsureFatal MutatorState :=
          if needExtend s2 ensureCurrentLevel stackBytes then
            match O.extend s2.hh stackBytes with
            | none => .error .outOfSpace
            | some hh2 => .ok (publishFromHH s2 hh2)
          else
            .ok s2
        match afterExtend with
        | .error e => .error e
        | .ok s3 =>
          -- growStackCurrent can move the published frontier; resync the heap
          let s4 := { s3 with frontier := s3.frontier.map O.growStackFrontier }
          .ok { s4 with hh := HM_HH_updateValues s4.hh s4.frontier }
      else
        .ok s2
    { collectCalledWith := branch.2,
      outcome :=
        match afterGrow with
        | .error e => .error e
        | .ok s5 =>
          if needExtend s5 ensureCurrentLevel bytesRequested then
            match O.extend s5.hh bytesRequested with
            | none => .error .outOfSpace
            | some hh2 => .ok (publishFromHH s5 hh2)
          else
            .ok s5 }

/-! Concrete states used to evaluate the definitions on specific inputs. -/

/-- Freshly created deque: `top = bot = 0`, every data slot holding the objptr
value 5. -/
def dequeNew : Deque := { top := 0, bot := 0, data := fun _ => 5 }

/-- Small non-full deque state (`top = 1`, `bot = 3`). -/
def dequeEx : Deque := { top := 1, bot := 3, data := fun _ => 0 }

/-- Full deque state (`bot - top = CAP`). -/
def dequeFullEx : Deque := { top := 0, bot := 64, data := fun _ => 0 }

/-- Concrete object model used to evaluate the size computations. -/
def objModelEx : ObjModel :=
  { GC_NORMAL_METADATA_SIZE := 8,
    GC_SEQUENCE_METADATA_SIZE := 16,
    GC_STACK_METADATA_SIZE := 8,
    OBJPTR_SIZE := 8,
    sizeofGCStackStruct := 40,
    sizeofSequenceNoMetaData := fun len bno np => len * (bno + np * 8),
    sizeofStackShrinkReserved := fun st _ => st.used + 8 }

/-- Default (invalid) object record for unused heap addresses. -/
def hobjNone : HObj :=
  { isObjptr := false, inRootHeap := false, level := 0, inToSpace := false,
    fwd := none, chunkId := 0, payload := .normal 0 0 }

/-- Concrete forwarding-engine state: objptr 10 is a level-2 object (8
non-pointer bytes, 1 pointer) alone in single-object chunk 7, which is the
only chunk of from-space level 2; objptr 11 is a level-5 object.  No to-space
level exists yet and the fresh-chunk counter starts at 100. -/
def fwdStateEx : FwdState :=
  { heap := fun q =>
      if q = 10 then
        { isObjptr := true, inRootHeap := false, level := 2, inToSpace := false,
          fwd := none, chunkId := 7, payload := .normal 8 1 }
      else if q = 11 then
        { isObjptr := true, inRootHeap := false, level := 5, inToSpace := false,
          fwd := none, chunkId := 8, payload := .normal 0 0 }
      else hobjNone,
    chunkMulti := fun c => c ≠ 7,
    chunkSizeOf := fun _ => 0,
    chunkBase := fun _ => 0,
    chunkFrontier := fun _ => 0,
    chunkLimit := fun _ => 0,
    hhLevel := fun l => if l = 2 then [7] else [],
    toSpace := fun _ => none,
    nextChunkId := 100,
    bytesCopied := 0, objectsCopied := 0, stacksCopied := 0,
    bytesMoved := 0, objectsMoved := 0 }

/-- Concrete forwarding arguments: collect levels `[1, 3]`. -/
def fwdArgsEx : FwdArgs := { minLevel := 1, maxLevel := 3, toLevel := none }

/-- Concrete weak-fixup state: weaks 0 and 1 on the chain; weak 0's referent
(objptr 20) is forwarded to 33, weak 1's referent (objptr 21) is not
forwarded. -/
def weakStateEx : WeakGCState :=
  { chain := [0, 1],
    weakObjptr := fun w => if w = 0 then 20 else if w = 1 then 21 else 0,
    weakHeader := fun _ => 9,
    refHeader := fun p => if p = 20 then GC_FORWARDED else 5,
    refFwd := fun p => if p = 20 then 33 else 0 }

/-- Concrete oracles for the facade: the stack predicate holds, collection is
desired at scope 1, `HM_HHC_collectLocal` leaves one chunk behind, extension
succeeds without changing the heap. -/
def ensureOraclesEx : EnsureOracles :=
  { invariantForMutatorStack := true,
    stackBytes := 0,
    desiredScope := 1,
    collectLocal := fun _ hh =>
      { hh with lastAllocatedChunk := some { base := 0, frontier := 100, limit := 1000, listLevel := 1 } },
    extend := fun hh _ => some hh,
    growStackFrontier := fun f => f }

/-- Concrete mutator state for the facade: worker at level 2 with a published
frontier of 50 inside a chunk `[0, 600)`. -/
def mutatorStateEx : MutatorState :=
  { frontier := some 50,
    limitPlusSlop := some 600,
    limit := some 88,
    hh := { hlevel := 2,
            lastAllocatedChunk := some { base := 0, frontier := 50, limit := 600, listLevel := 2 },
            bytesAllocatedSinceLastCollection := 77 } }

/-! Theorems settling the claims. -/

/-- C1: on a deque with `top = bot = 0` (a new deque), `ChaseLev_tryPopBot`
does NOT return the fail value and does NOT restore `bot`: the unsigned
64-bit speculative decrement wraps `bot` to `2^64 - 1`, the emptiness test
`top ≤ bot` then succeeds spuriously, and the code returns the stale slot
`data[63]` while leaving `bot = 2^64 - 1`.  This contradicts the claim (and
spec scenario S1) that popping an empty deque with `top = bot = k` returns
fail and leaves `top = bot = k`, for the case `k = 0`; for `k ≥ 1` the claim
holds (see `tryPopBot_empty_nonzero_ok`). -/
theorem tryPopBot_empty_zero_deque_bug :
    (ChaseLev_tryPopBot dequeNew 7).1 = 5 ∧
    (ChaseLev_tryPopBot dequeNew 7).1 ≠ 7 ∧
    (ChaseLev_tryPopBot dequeNew 7).2.bot = U64 - 1 ∧
    (ChaseLev_tryPopBot dequeNew 7).2.top = 0 := by
  refine ⟨by decide, by decide, by decide, by decide⟩

/-- Helper fact: for `1 ≤ k < 2^64`, popping the bottom of an empty deque with
`top = bot = k` returns the fail value and leaves the deque exactly as it was
(`top = bot = k`), as the claim states for those `k`. -/
theorem tryPopBot_empty_nonzero_ok (d : Deque) (fail_value : Nat)
    (hk : 1 ≤ d.bot) (hb : d.bot < U64) (he : d.top = d.bot) :
    ChaseLev_tryPopBot d fail_value = (fail_value, d) := by
  have hU : U64 = 18446744073709551616 := rfl
  have hlb : (d.bot + (U64 - 1)) % U64 = d.bot - 1 := by
    have h1 : d.bot + (U64 - 1) = (d.bot - 1) + U64 := by omega
    rw [h1, Nat.add_mod_right, Nat.mod_eq_of_lt (by omega)]
  have hgt : ¬ (d.top ≤ (d.bot + (U64 - 1)) % U64) := by
    rw [hlb]; omega
  have hbot : ((d.bot + (U64 - 1)) % U64 + 1) % U64 = d.bot := by
    rw [hlb]
    have h2 : d.bot - 1 + 1 = d.bot := by omega
    rw [h2, Nat.mod_eq_of_lt hb]
  unfold ChaseLev_tryPopBot
  rw [if_neg hgt, hbot]

/-- Witness for `tryPopBot_empty_nonzero_ok` at `top = bot = 4`. -/
theorem tryPopBot_empty_nonzero_ok_witness :
    ChaseLev_tryPopBot { top := 4, bot := 4, data := fun _ => 0 } 7 =
      (7, { top := 4, bot := 4, data := fun _ => 0 }) :=
  tryPopBot_empty_nonzero_ok _ 7 (by decide) (by decide) rfl

/-- C2: `ChaseLev_pushBot` fails and leaves the deque (top, bot and data)
unchanged exactly when the unsigned size `bot - top` has reached `CAP = 64`;
otherwise it writes the element into `data[bot % CAP]` (leaving the other
slots and `top` unchanged, as the `Function.update` shows), performs the u64
increment `bot := bot + 1` (wrapping modulo `2^64`), and returns true. -/
theorem pushBot_spec (d : Deque) (v : Nat) :
    ((d.bot + U64 - d.top) % U64 ≥ CAP → ChaseLev_pushBot d v = (false, d)) ∧
    ((d.bot + U64 - d.top) % U64 < CAP →
      ChaseLev_pushBot d v =
        (true,
          { d with
            data := Function.update d.data ⟨d.bot % CAP, Nat.mod_lt _ (by decide)⟩ v,
            bot := (d.bot + 1) % U64 })) := by
  constructor
  · intro h
    unfold ChaseLev_pushBot
    rw [if_pos h]
  · intro h
    unfold ChaseLev_pushBot
    rw [if_neg (by omega : ¬ (d.bot + U64 - d.top) % U64 ≥ CAP)]

/-- Witness for C2: the full deque rejects a push unchanged, and the non-full
deque accepts one, writing slot `bot % CAP` and incrementing `bot`. -/
theorem pushBot_spec_witness :
    ChaseLev_pushBot dequeFullEx 9 = (false, dequeFullEx) ∧
    ChaseLev_pushBot dequeEx 9 =
      (true,
        { dequeEx with
          data := Function.update dequeEx.data ⟨dequeEx.bot % CAP, Nat.mod_lt _ (by decide)⟩ 9,
          bot := (dequeEx.bot + 1) % U64 }) :=
  ⟨(pushBot_spec dequeFullEx 9).1 (by decide),
   (pushBot_spec dequeEx 9).2 (by decide)⟩

/-- C3: `ChaseLev_setDepth` run from an empty deque (`top = bot = k`) orders
its two seq-cst stores so that every observable state in its trace — initial,
intermediate (after the first store, before the second), and final — satisfies
`bot ≤ top`, so a concurrently sampling thief never observes an apparently
non-empty deque. -/
theorem setDepth_never_observably_nonempty (k d : Nat) (tr : List DequeIdx)
    (h : ChaseLev_setDepth k k d = some tr) :
    ∀ st ∈ tr, st.bot ≤ st.top := by
  unfold ChaseLev_setDepth at h
  rw [if_neg (by simp)] at h
  by_cases h1 : d = k
  · rw [if_pos h1] at h
    cases h
    intro st hst
    simp only [List.mem_singleton] at hst
    subst hst
    exact Nat.le_refl _
  · rw [if_neg h1] at h
    by_cases h2 : d < k
    · rw [if_pos h2] at h
      cases h
      intro st hst
      simp only [List.mem_cons, List.not_mem_nil, or_false] at hst
      rcases hst with rfl | rfl | rfl <;> (simp; try omega)
    · rw [if_neg h2] at h
      cases h
      intro st hst
      simp only [List.mem_cons, List.not_mem_nil, or_false] at hst
      rcases hst with rfl | rfl | rfl <;> (simp; try omega)

/-- Witness for C3: the intermediate state of `set_depth 2` from `top=bot=5`
(`top` still 5, `bot` already 2) still appears empty. -/
theorem setDepth_never_observably_nonempty_witness :
    (⟨5, 2⟩ : DequeIdx).bot ≤ (⟨5, 2⟩ : DequeIdx).top :=
  setDepth_never_observably_nonempty 5 2 [⟨5, 5⟩, ⟨5, 2⟩, ⟨2, 2⟩] (by decide) ⟨5, 2⟩
    (by decide)

/-- Helper for C9: whenever the speculative decrement leaves `top ≤ bot`, both
non-empty branches of `ChaseLev_tryPopBot` return the element at
`data[bot % CAP]` (on the last-element branch the sequential CAS succeeds). -/
theorem tryPopBot_first_when_nonempty (e : Deque) (f : Nat)
    (h1 : e.top ≤ (e.bot + (U64 - 1)) % U64) :
    (ChaseLev_tryPopBot e f).1 =
      e.data ⟨(e.bot + (U64 - 1)) % U64 % CAP, Nat.mod_lt _ (by decide)⟩ := by
  unfold ChaseLev_tryPopBot
  rw [if_pos h1]
  by_cases h2 : e.top = (e.bot + (U64 - 1)) % U64
  · rw [if_pos h2]
  · rw [if_neg h2]

/-- Witness for `tryPopBot_first_when_nonempty` on a two-element deque. -/
theorem tryPopBot_first_when_nonempty_witness :
    (ChaseLev_tryPopBot dequeEx 7).1 = dequeEx.data ⟨2, by decide⟩ :=
  tryPopBot_first_when_nonempty dequeEx 7 (by decide)

/-- C9: on a non-full deque state (`top ≤ bot`, `bot - top < CAP`), pushing a
value `v` succeeds and an immediately following `try_pop_bottom` with no
interleaved thief returns exactly `v`. -/
theorem pushBot_then_tryPopBot_roundtrip (d : Deque) (v fail_value : Nat)
    (hb : d.bot < U64) (hts : d.top ≤ d.bot) (hnf : d.bot - d.top < CAP) :
    (ChaseLev_pushBot d v).1 = true ∧
    (ChaseLev_tryPopBot (ChaseLev_pushBot d v).2 fail_value).1 = v := by
  have hU : U64 = 18446744073709551616 := rfl
  have hCAP : CAP = 64 := rfl
  have hsize : (d.bot + U64 - d.top) % U64 = d.bot - d.top := by
    have h1 : d.bot + U64 - d.top = (d.bot - d.top) + U64 := by omega
    rw [h1, Nat.add_mod_right, Nat.mod_eq_of_lt (by omega)]
  have hlt : ¬ ((d.bot + U64 - d.top) % U64 ≥ CAP) := by rw [hsize]; omega
  have hpush : ChaseLev_pushBot d v =
      (true,
        { d with
          data := Function.update d.data ⟨d.bot % CAP, Nat.mod_lt _ (by decide)⟩ v,
          bot := (d.bot + 1) % U64 }) := by
    unfold ChaseLev_pushBot
    rw [if_neg hlt]
  have hdeq : (ChaseLev_pushBot d v).2 =
      { d with
        data := Function.update d.data ⟨d.bot % CAP, Nat.mod_lt _ (by decide)⟩ v,
        bot := (d.bot + 1) % U64 } := by
    rw [hpush]
  have hret : (ChaseLev_pushBot d v).1 = true := by rw [hpush]
  refine ⟨hret, ?_⟩
  rw [hdeq]
  have hlb : (((d.bot + 1) % U64) + (U64 - 1)) % U64 = d.bot := by
    rw [Nat.mod_add_mod]
    have h2 : d.bot + 1 + (U64 - 1) = d.bot + U64 := by omega
    rw [h2, Nat.add_mod_right, Nat.mod_eq_of_lt hb]
  rw [tryPopBot_first_when_nonempty _ _ (by rw [hlb]; exact hts)]
  have hidx :
      (⟨(((d.bot + 1) % U64) + (U64 - 1)) % U64 % CAP, Nat.mod_lt _ (by decide)⟩ : Fin CAP) =
        ⟨d.bot % CAP, Nat.mod_lt _ (by decide)⟩ := by
    simp only [Fin.mk.injEq]
    rw [hlb]
  rw [hidx]
  exact Function.update_same _ _ _

/-- Witness for C9: pushing 42 onto the non-full example deque and popping it
back returns 42. -/
theorem pushBot_then_tryPopBot_roundtrip_witness :
    (ChaseLev_pushBot dequeEx 42).1 = true ∧
    (ChaseLev_tryPopBot (ChaseLev_pushBot dequeEx 42).2 7).1 = 42 :=
  pushBot_then_tryPopBot_roundtrip dequeEx 42 7 (by decide) (by decide) (by decide)

/-- Helper for C5: once past the entanglement check, the forwarding phase can
only return a state or the WEAK_TAG fatal, never the entanglement fatal. -/
theorem forwardPhase_no_entanglement (M : ObjModel) (cur : Bool)
    (st : FwdState) (op2 : Nat) :
    forwardHHObjptr_forwardPhase M cur st op2 ≠ .error .entanglement := by
  unfold forwardHHObjptr_forwardPhase
  rcases h : computeObjectCopyParameters M cur (st.heap op2).payload with _ | ⟨cp, payload2⟩
  · simp [h]
  · simp only [h]
    split
    all_goals split
    all_goals simp

/-- Helper for C5: the post-chase skip checks and the forwarding phase never
produce the entanglement fatal. -/
theorem forwardTail_no_entanglement (M : ObjModel) (cur : Bool) (args : FwdArgs)
    (st : FwdState) (op2 : Nat) :
    (if (st.heap op2).level < args.minLevel then
        (.ok (op2, st) : Except GCFatal (Nat × FwdState))
      else if (st.heap op2).inToSpace then .ok (op2, st)
      else forwardHHObjptr_forwardPhase M cur st op2) ≠ .error .entanglement := by
  split
  · simp
  · split
    · simp
    · exact forwardPhase_no_entanglement M cur st op2

/-- C5: on a slot holding a real hierarchical-heap object pointer (a valid
objptr not in the root heap), `forwardHHObjptr` aborts fatally with the
entanglement error exactly when the referent's level exceeds
`args.maxLevel`; when the level is at most `maxLevel` the entanglement
branch is never taken (any fatal can only be the unsupported-WEAK one). -/
theorem forwardHHObjptr_entanglement_iff (M : ObjModel) (args : FwdArgs) (fuel : Nat)
    (cur : Bool) (st : FwdState) (op : Nat)
    (hobj : (st.heap op).isObjptr = true)
    (hroot : (st.heap op).inRootHeap = false) :
    ((st.heap op).level > args.maxLevel →
      forwardHHObjptr M args fuel cur st op = .error .entanglement) ∧
    ((st.heap op).level ≤ args.maxLevel →
      forwardHHObjptr M args fuel cur st op ≠ .error .entanglement) := by
  have hA : ¬ ((!(st.heap op).isObjptr || (st.heap op).inRootHeap) = true) := by
    simp [hobj, hroot]
  constructor
  · intro hgt
    unfold forwardHHObjptr
    rw [if_neg hA, if_pos hgt]
  · intro hle
    unfold forwardHHObjptr
    rw [if_neg hA, if_neg (by omega : ¬ (st.heap op).level > args.maxLevel)]
    split
    · simp
    · exact forwardTail_no_entanglement M cur args st (chaseFwd st.heap fuel op)

/-- Witness for C5: objptr 11 sits at level 5, above `maxLevel = 3`, and
forwarding it dies with the entanglement fatal. -/
theorem forwardHHObjptr_entanglement_iff_witness :
    forwardHHObjptr objModelEx fwdArgsEx 1 false fwdStateEx 11 = .error .entanglement :=
  (forwardHHObjptr_entanglement_iff objModelEx fwdArgsEx 1 false fwdStateEx 11
    (by decide) (by decide)).1 (by decide)

/-- Helper: the forwarding-chain chase is the identity on an objptr without a
forwarding pointer, for every fuel. -/
theorem chaseFwd_no_fwd (heap : Nat → HObj) (fuel op : Nat)
    (h : (heap op).fwd = none) : chaseFwd heap fuel op = op := by
  cases fuel with
  | zero => rfl
  | succ n =>
    unfold chaseFwd
    rw [h]

/-- Helper: selecting the target chunk list when the to-space level already
exists. -/
theorem getOrCreate_some (st : FwdState) (level bytes : Nat) (tl : ToSpaceList)
    (h : st.toSpace level = some tl) :
    getOrCreateToSpaceLevel st level bytes = (st, tl) := by
  unfold getOrCreateToSpaceLevel
  rw [h]

/-- Helper: lazy creation of the to-space level: a fresh list marked
`isInToSpace` owning one fresh chunk of at least the object's size. -/
theorem getOrCreate_none (st : FwdState) (level bytes : Nat)
    (h : st.toSpace level = none) :
    getOrCreateToSpaceLevel st level bytes =
      ({ st with
          nextChunkId := st.nextChunkId + 1,
          chunkMulti := Function.update st.chunkMulti st.nextChunkId true,
          chunkSizeOf := Function.update st.chunkSizeOf st.nextChunkId bytes,
          toSpace := Function.update st.toSpace level
            (some { chunks := [st.nextChunkId], isInToSpace := true,
                    containingHH := COPY_OBJECT_HH_VALUE, listLevel := level }) },
       { chunks := [st.nextChunkId], isInToSpace := true,
         containingHH := COPY_OBJECT_HH_VALUE, listLevel := level }) := by
  unfold getOrCreateToSpaceLevel allocateChunk
  rw [h]
  rfl

/-- Helper: explicit form of the single-object-chunk relocation: the chunk
disappears from every from-space level list, the target list gains the chunk
followed by a fresh `GC_HEAP_LIMIT_SLOP`-byte chunk, and only the moved
statistics change. -/
theorem moveSingleObjectChunk_eq (st : FwdState) (tgt : ToSpaceList)
    (level cid copyBytes : Nat) :
    moveSingleObjectChunk st tgt level cid copyBytes =
      { st with
        hhLevel := fun l => (st.hhLevel l).filter (fun c => c ≠ cid),
        nextChunkId := st.nextChunkId + 1,
        chunkMulti := Function.update st.chunkMulti st.nextChunkId true,
        chunkSizeOf := Function.update st.chunkSizeOf st.nextChunkId GC_HEAP_LIMIT_SLOP,
        toSpace := Function.update st.toSpace level
          (some { tgt with chunks := (tgt.chunks ++ [cid]) ++ [st.nextChunkId] }),
        bytesMoved := st.bytesMoved + copyBytes,
        objectsMoved := st.objectsMoved + 1 } := by
  unfold moveSingleObjectChunk unlinkChunk allocateChunk
  rfl

/-- Helper: when the chased objptr is still in collection range and not in
to-space, the tail of `forwardHHObjptr` runs the forwarding phase. -/
theorem forwardTail_skip_none (M : ObjModel) (cur : Bool) (args : FwdArgs)
    (st : FwdState) (op2 : Nat)
    (h1 : ¬ (st.heap op2).level < args.minLevel)
    (h2 : ¬ ((st.heap op2).inToSpace = true)) :
    (if (st.heap op2).level < args.minLevel then
        (.ok (op2, st) : Except GCFatal (Nat × FwdState))
      else if (st.heap op2).inToSpace then .ok (op2, st)
      else forwardHHObjptr_forwardPhase M cur st op2) =
      forwardHHObjptr_forwardPhase M cur st op2 := by
  rw [if_neg h1, if_neg h2]

/-- Helper for C4: when the (possibly lazily created) target list leaves the
referent's chunk marked as a single-object chunk, the forwarding phase takes
the relocation fast path and returns `op` itself with the relocated state. -/
theorem forwardPhase_fastpath (M : ObjModel) (cur : Bool) (st : FwdState) (op : Nat)
    (cp : CopyParams) (payload2 : ObjPayload)
    (hcomp : computeObjectCopyParameters M cur (st.heap op).payload = some (cp, payload2))
    (hm : (getOrCreateToSpaceLevel
        { st with
          stacksCopied :=
            if cp.tag = .STACK_TAG then st.stacksCopied + 1 else st.stacksCopied,
          heap := Function.update st.heap op { st.heap op with payload := payload2 } }
        (st.heap op).level cp.objectSize).1.chunkMulti (st.heap op).chunkId = false) :
    forwardHHObjptr_forwardPhase M cur st op =
      .ok (op,
        moveSingleObjectChunk
          (getOrCreateToSpaceLevel
            { st with
              stacksCopied :=
                if cp.tag = .STACK_TAG then st.stacksCopied + 1 else st.stacksCopied,
              heap := Function.update st.heap op { st.heap op with payload := payload2 } }
            (st.heap op).level cp.objectSize).1
          (getOrCreateToSpaceLevel
            { st with
              stacksCopied :=
                if cp.tag = .STACK_TAG then st.stacksCopied + 1 else st.stacksCopied,
              heap := Function.update st.heap op { st.heap op with payload := payload2 } }
            (st.heap op).level cp.objectSize).2
          (st.heap op).level (st.heap op).chunkId cp.copySize) := by
  unfold forwardHHObjptr_forwardPhase
  simp only [hcomp]
  rw [if_pos hm]

/-- C4: forwarding an in-range, not-yet-forwarded, not-in-to-space object
whose chunk has `mightContainMultipleObjects = false` relocates the chunk:
the result slot value is the unchanged address `op`, no forwarding pointer is
installed, `objectsMoved` grows by one and `bytesMoved` by the copy size
while `objectsCopied` / `bytesCopied` are untouched, the chunk is unlinked
from every from-space level list, and the to-space list at the object's
level ends with the relocated chunk followed by a fresh trailing chunk of
`GC_HEAP_LIMIT_SLOP` bytes.  The freshness hypothesis
`chunkId ≠ nextChunkId` says the object's chunk is not the allocator's next
fresh chunk. -/
theorem forwardHHObjptr_singleObjectChunk_fastpath
    (M : ObjModel) (args : FwdArgs) (fuel : Nat) (cur : Bool) (st : FwdState)
    (op : Nat) (cp : CopyParams) (payload2 : ObjPayload)
    (hobj : (st.heap op).isObjptr = true)
    (hroot : (st.heap op).inRootHeap = false)
    (hfwd : (st.heap op).fwd = none)
    (hts : (st.heap op).inToSpace = false)
    (hmin : args.minLevel ≤ (st.heap op).level)
    (hmax : (st.heap op).level ≤ args.maxLevel)
    (hsingle : st.chunkMulti (st.heap op).chunkId = false)
    (hfresh : (st.heap op).chunkId ≠ st.nextChunkId)
    (hcomp : computeObjectCopyParameters M cur (st.heap op).payload = some (cp, payload2)) :
    ∃ st2,
      forwardHHObjptr M args fuel cur st op = .ok (op, st2) ∧
      (st2.heap op).fwd = none ∧
      st2.objectsMoved = st.objectsMoved + 1 ∧
      st2.bytesMoved = st.bytesMoved + cp.copySize ∧
      st2.objectsCopied = st.objectsCopied ∧
      st2.bytesCopied = st.bytesCopied ∧
      (∀ l, (st.heap op).chunkId ∉ st2.hhLevel l) ∧
      ∃ tl2 freshId,
        st2.toSpace (st.heap op).level = some tl2 ∧
        tl2.chunks =
          (match st.toSpace (st.heap op).level with
            | some tl => tl.chunks
            | none => [st.nextChunkId]) ++ [(st.heap op).chunkId, freshId] ∧
        st2.chunkSizeOf freshId = GC_HEAP_LIMIT_SLOP := by
  have hA : ¬ ((!(st.heap op).isObjptr || (st.heap op).inRootHeap) = true) := by
    simp [hobj, hroot]
  have hB : ¬ (st.heap op).level > args.maxLevel := by omega
  have hC : ¬ ((decide ((st.heap op).level > args.maxLevel) ||
      decide ((st.heap op).level < args.minLevel)) = true) := by
    simp only [Bool.or_eq_true, decide_eq_true_eq]
    omega
  have hchase : chaseFwd st.heap fuel op = op := chaseFwd_no_fwd _ _ _ hfwd
  have hstep : forwardHHObjptr M args fuel cur st op =
      forwardHHObjptr_forwardPhase M cur st op := by
    unfold forwardHHObjptr
    rw [if_neg hA, if_neg hB, if_neg hC, hchase]
    exact forwardTail_skip_none M cur args st op (by omega) (by simp [hts])
  rcases hT : st.toSpace (st.heap op).level with _ | tl
  · -- to-space level does not exist yet: it is created lazily
    have hg := getOrCreate_none
      { st with
        stacksCopied :=
          if cp.tag = .STACK_TAG then st.stacksCopied + 1 else st.stacksCopied,
        heap := Function.update st.heap op { st.heap op with payload := payload2 } }
      (st.heap op).level cp.objectSize hT
    have hm : (getOrCreateToSpaceLevel
        { st with
          stacksCopied :=
            if cp.tag = .STACK_TAG then st.stacksCopied + 1 else st.stacksCopied,
          heap := Function.update st.heap op { st.heap op with payload := payload2 } }
        (st.heap op).level cp.objectSize).1.chunkMulti (st.heap op).chunkId = false := by
      rw [hg]
      show Function.update st.chunkMulti st.nextChunkId true (st.heap op).chunkId = false
      rw [Function.update_noteq hfresh]
      exact hsingle
    have hphase := forwardPhase_fastpath M cur st op cp payload2 hcomp hm
    rw [hg] at hphase
    rw [moveSingleObjectChunk_eq] at hphase
    refine ⟨_, hstep.trans hphase, ?_, ?_, ?_, ?_, ?_, ?_, ?_⟩
    · show (Function.update st.heap op { st.heap op with payload := payload2 } op).fwd = none
      rw [Function.update_same]
      exact hfwd
    · rfl
    · rfl
    · rfl
    · rfl
    · intro l
      show (st.heap op).chunkId ∉ (st.hhLevel l).filter (fun c => c ≠ (st.heap op).chunkId)
      simp
    · refine ⟨{ chunks := [st.nextChunkId, (st.heap op).chunkId, st.nextChunkId + 1],
                isInToSpace := true, containingHH := COPY_OBJECT_HH_VALUE,
                listLevel := (st.heap op).level },
              st.nextChunkId + 1, ?_, ?_, ?_⟩
      · simp [Function.update_same]
      · simp [hT]
      · simp [Function.update_same]
  · -- to-space level already exists
    have hg := getOrCreate_some
      { st with
        stacksCopied :=
          if cp.tag = .STACK_TAG then st.stacksCopied + 1 else st.stacksCopied,
        heap := Function.update st.heap op { st.heap op with payload := payload2 } }
      (st.heap op).level cp.objectSize tl hT
    have hm : (getOrCreateToSpaceLevel
        { st with
          stacksCopied :=
            if cp.tag = .STACK_TAG then st.stacksCopied + 1 else st.stacksCopied,
          heap := Function.update st.heap op { st.heap op with payload := payload2 } }
        (st.heap op).level cp.objectSize).1.chunkMulti (st.heap op).chunkId = false := by
      rw [hg]
      exact hsingle
    have hphase := forwardPhase_fastpath M cur st op cp payload2 hcomp hm
    rw [hg] at hphase
    rw [moveSingleObjectChunk_eq] at hphase
    refine ⟨_, hstep.trans hphase, ?_, ?_, ?_, ?_, ?_, ?_, ?_⟩
    · show (Function.update st.heap op { st.heap op with payload := payload2 } op).fwd = none
      rw [Function.update_same]
      exact hfwd
    · rfl
    · rfl
    · rfl
    · rfl
    · intro l
      show (st.heap op).chunkId ∉ (st.hhLevel l).filter (fun c => c ≠ (st.heap op).chunkId)
      simp
    · refine ⟨{ tl with chunks := tl.chunks ++ [(st.heap op).chunkId, st.nextChunkId] },
              st.nextChunkId, ?_, ?_, ?_⟩
      · simp [Function.update_same]
      · simp [hT]
      · simp [Function.update_same]

/-- C6: for every stack object, `computeObjectCopyParameters` shrinks the
stack's `reserved` field exactly when `sizeofStackShrinkReserved` returns a
smaller reservation (so the field never grows), leaves `used` unchanged, and
returns `objectSize = metaDataSize + sizeof(struct GC_stack) + reserved` and
`copySize = metaDataSize + sizeof(struct GC_stack) + used` (with the
post-call `reserved`/`used`). -/
theorem computeObjectCopyParameters_stack_spec (M : ObjModel) (cur : Bool) (st : GCStack) :
    ∃ cp st2,
      computeObjectCopyParameters M cur (.stack st) = some (cp, .stack st2) ∧
      st2.reserved ≤ st.reserved ∧
      st2.used = st.used ∧
      st2.reserved = (if M.sizeofStackShrinkReserved st cur < st.reserved
        then M.sizeofStackShrinkReserved st cur else st.reserved) ∧
      cp.objectSize = cp.metaDataSize + M.sizeofGCStackStruct + st2.reserved ∧
      cp.copySize = cp.metaDataSize + M.sizeofGCStackStruct + st2.used := by
  by_cases h : M.sizeofStackShrinkReserved st cur < st.reserved
  · refine ⟨{ tag := .STACK_TAG,
              objectSize := M.sizeofGCStackStruct + M.sizeofStackShrinkReserved st cur +
                M.GC_STACK_METADATA_SIZE,
              copySize := M.sizeofGCStackStruct + st.used + M.GC_STACK_METADATA_SIZE,
              metaDataSize := M.GC_STACK_METADATA_SIZE },
            { reserved := M.sizeofStackShrinkReserved st cur, used := st.used },
            ?_, ?_, ?_, ?_, ?_, ?_⟩
    · simp only [computeObjectCopyParameters, if_pos h]
    · show M.sizeofStackShrinkReserved st cur ≤ st.reserved
      omega
    · rfl
    · show M.sizeofStackShrinkReserved st cur = _
      rw [if_pos h]
    · show M.sizeofGCStackStruct + M.sizeofStackShrinkReserved st cur +
        M.GC_STACK_METADATA_SIZE = M.GC_STACK_METADATA_SIZE + M.sizeofGCStackStruct +
        M.sizeofStackShrinkReserved st cur
      omega
    · show M.sizeofGCStackStruct + st.used + M.GC_STACK_METADATA_SIZE =
        M.GC_STACK_METADATA_SIZE + M.sizeofGCStackStruct + st.used
      omega
  · refine ⟨{ tag := .STACK_TAG,
              objectSize := M.sizeofGCStackStruct + st.reserved + M.GC_STACK_METADATA_SIZE,
              copySize := M.sizeofGCStackStruct + st.used + M.GC_STACK_METADATA_SIZE,
              metaDataSize := M.GC_STACK_METADATA_SIZE },
            st, ?_, ?_, ?_, ?_, ?_, ?_⟩
    · simp only [computeObjectCopyParameters, if_neg h]
    · exact Nat.le_refl _
    · rfl
    · rw [if_neg h]
    · show M.sizeofGCStackStruct + st.reserved + M.GC_STACK_METADATA_SIZE =
        M.GC_STACK_METADATA_SIZE + M.sizeofGCStackStruct + st.reserved
      omega
    · show M.sizeofGCStackStruct + st.used + M.GC_STACK_METADATA_SIZE =
        M.GC_STACK_METADATA_SIZE + M.sizeofGCStackStruct + st.used
      omega

/-- C10: under the stack well-formedness invariant `used ≤ reserved` and the
`sizeofStackShrinkReserved` contract that the shrunk reservation still holds
the used bytes, `computeObjectCopyParameters` always returns
`copySize ≤ objectSize`, with equality on NORMAL and SEQUENCE objects — so
the `copySize <= objectSize` assertion of `copyObject` holds on every call
made by the forwarding engine (which passes exactly these computed sizes). -/
theorem computeObjectCopyParameters_copy_le (M : ObjModel) (cur : Bool)
    (o : ObjPayload) (cp : CopyParams) (o2 : ObjPayload)
    (hcomp : computeObjectCopyParameters M cur o = some (cp, o2))
    (hstack : ∀ st, o = .stack st →
      st.used ≤ st.reserved ∧ st.used ≤ M.sizeofStackShrinkReserved st cur) :
    cp.copySize ≤ cp.objectSize ∧
    ((cp.tag = .NORMAL_TAG ∨ cp.tag = .SEQUENCE_TAG) → cp.copySize = cp.objectSize) := by
  cases o with
  | normal bno np =>
    simp only [computeObjectCopyParameters, Option.some.injEq, Prod.mk.injEq] at hcomp
    obtain ⟨hcp, ho2⟩ := hcomp
    subst hcp
    exact ⟨Nat.le_refl _, fun _ => rfl⟩
  | sequence len bno np =>
    simp only [computeObjectCopyParameters, Option.some.injEq, Prod.mk.injEq] at hcomp
    obtain ⟨hcp, ho2⟩ := hcomp
    subst hcp
    exact ⟨Nat.le_refl _, fun _ => rfl⟩
  | stack st =>
    obtain ⟨hur, hus⟩ := hstack st rfl
    simp only [computeObjectCopyParameters, Option.some.injEq, Prod.mk.injEq] at hcomp
    obtain ⟨hcp, ho2⟩ := hcomp
    subst hcp
    constructor
    · show M.sizeofGCStackStruct +
        (if M.sizeofStackShrinkReserved st cur < st.reserved
          then { st with reserved := M.sizeofStackShrinkReserved st cur } else st).used +
        M.GC_STACK_METADATA_SIZE ≤
        M.sizeofGCStackStruct +
        (if M.sizeofStackShrinkReserved st cur < st.reserved
          then { st with reserved := M.sizeofStackShrinkReserved st cur } else st).reserved +
        M.GC_STACK_METADATA_SIZE
      by_cases h : M.sizeofStackShrinkReserved st cur < st.reserved
      · rw [if_pos h]
        show M.sizeofGCStackStruct + st.used + _ ≤
          M.sizeofGCStackStruct + M.sizeofStackShrinkReserved st cur + _
        omega
      · rw [if_neg h]
        omega
    · intro htag
      rcases htag with htag | htag <;> simp at htag
  | weak =>
    simp only [computeObjectCopyParameters] at hcomp
    exact absurd hcomp (by simp)

/-- Helper for C7: one weak-fixup step never changes the referent headers,
the forwarded-target words, or the chain. -/
theorem updateWeakStep_refs (s : WeakGCState) (a : Nat) :
    (updateWeakStep s a).refHeader = s.refHeader ∧
    (updateWeakStep s a).refFwd = s.refFwd ∧
    (updateWeakStep s a).chain = s.chain := by
  unfold updateWeakStep
  split
  · exact ⟨rfl, rfl, rfl⟩
  · exact ⟨rfl, rfl, rfl⟩

/-- Helper for C7: one weak-fixup step leaves every other weak's target slot
and header untouched. -/
theorem updateWeakStep_other (s : WeakGCState) (a w : Nat) (hne : w ≠ a) :
    (updateWeakStep s a).weakObjptr w = s.weakObjptr w ∧
    (updateWeakStep s a).weakHeader w = s.weakHeader w := by
  unfold updateWeakStep
  split
  · exact ⟨Function.update_noteq hne _ _, rfl⟩
  · exact ⟨Function.update_noteq hne _ _, Function.update_noteq hne _ _⟩

/-- Helper for C7: the fixup loop leaves weaks outside the processed list
untouched. -/
theorem updateWeaksLoop_not_mem (l : List Nat) :
    ∀ (s : WeakGCState) (w : Nat), w ∉ l →
      (updateWeaksLoop s l).weakObjptr w = s.weakObjptr w ∧
      (updateWeaksLoop s l).weakHeader w = s.weakHeader w := by
  induction l with
  | nil => exact fun s w _ => ⟨rfl, rfl⟩
  | cons a t ih =>
    intro s w hw
    have hna : w ≠ a := fun h => hw (h ▸ List.mem_cons_self a t)
    have hnt : w ∉ t := fun h => hw (List.mem_cons_of_mem a h)
    have hloop : updateWeaksLoop s (a :: t) = updateWeaksLoop (updateWeakStep s a) t := rfl
    rw [hloop]
    obtain ⟨h1, h2⟩ := ih (updateWeakStep s a) w hnt
    obtain ⟨h3, h4⟩ := updateWeakStep_other s a w hna
    rw [h1, h2, h3, h4]
    exact ⟨rfl, rfl⟩

/-- Helper for C7: per-weak effect of the fixup loop over a duplicate-free
chain. -/
theorem updateWeaksLoop_spec (l : List Nat) :
    ∀ (s : WeakGCState) (w : Nat), l.Nodup → w ∈ l →
      ((s.refHeader (s.weakObjptr w) = GC_FORWARDED →
        (updateWeaksLoop s l).weakObjptr w = s.refFwd (s.weakObjptr w)) ∧
       (s.refHeader (s.weakObjptr w) ≠ GC_FORWARDED →
        (updateWeaksLoop s l).weakHeader w = GC_WEAK_GONE_HEADER ∧
        (updateWeaksLoop s l).weakObjptr w = BOGUS_OBJPTR)) := by
  induction l with
  | nil => intro s w _ hw; cases hw
  | cons a t ih =>
    intro s w hnd hw
    have hloop : updateWeaksLoop s (a :: t) = updateWeaksLoop (updateWeakStep s a) t := rfl
    rcases List.mem_cons.mp hw with rfl | hwt
    · have hnt : w ∉ t := (List.nodup_cons.mp hnd).1
      obtain ⟨hp1, hp2⟩ := updateWeaksLoop_not_mem t (updateWeakStep s w) w hnt
      rw [hloop]
      constructor
      · intro hfwd
        rw [hp1]
        unfold updateWeakStep
        rw [if_pos hfwd]
        show Function.update s.weakObjptr w (s.refFwd (s.weakObjptr w)) w = _
        rw [Function.update_same]
      · intro hnfwd
        rw [hp1, hp2]
        unfold updateWeakStep
        rw [if_neg hnfwd]
        constructor
        · show Function.update s.weakHeader w GC_WEAK_GONE_HEADER w = _
          rw [Function.update_same]
        · show Function.update s.weakObjptr w BOGUS_OBJPTR w = _
          rw [Function.update_same]
    · have hane : a ∉ t := (List.nodup_cons.mp hnd).1
      have hne : w ≠ a := fun h => hane (h ▸ hwt)
      obtain ⟨hobj, hhd⟩ := updateWeakStep_other s a w hne
      obtain ⟨hrefH, hrefF, _⟩ := updateWeakStep_refs s a
      have hia := ih (updateWeakStep s a) w (List.nodup_cons.mp hnd).2 hwt
      rw [hloop]
      constructor
      · intro hfwd
        have h5 := hia.1 (by rw [hrefH, hobj]; exact hfwd)
        rw [h5, hrefF, hobj]
      · intro hnfwd
        have h5 := hia.2 (by rw [hrefH, hobj]; exact hnfwd)
        rw [h5.1, h5.2] at *
        exact ⟨rfl, rfl⟩

/-- C7: for every weak `w` on the weak chain at the start of the fixup pass,
if `w`'s referent carries the `GC_FORWARDED` header then after
`updateWeaksForCheneyCopy` the weak's target slot holds the forwarded target
read from the referent; otherwise the weak's own header is overwritten with
`GC_WEAK_GONE_HEADER` and its target slot is cleared to `BOGUS_OBJPTR`; and
the chain itself is reset to empty. -/
theorem updateWeaksForCheneyCopy_spec (s0 : WeakGCState) (w : Nat)
    (hnd : s0.chain.Nodup) (hw : w ∈ s0.chain) :
    (updateWeaksForCheneyCopy s0).chain = [] ∧
    (s0.refHeader (s0.weakObjptr w) = GC_FORWARDED →
      (updateWeaksForCheneyCopy s0).weakObjptr w = s0.refFwd (s0.weakObjptr w)) ∧
    (s0.refHeader (s0.weakObjptr w) ≠ GC_FORWARDED →
      (updateWeaksForCheneyCopy s0).weakHeader w = GC_WEAK_GONE_HEADER ∧
      (updateWeaksForCheneyCopy s0).weakObjptr w = BOGUS_OBJPTR) := by
  have hobj : (updateWeaksForCheneyCopy s0).weakObjptr =
      (updateWeaksLoop s0 s0.chain).weakObjptr := rfl
  have hhd : (updateWeaksForCheneyCopy s0).weakHeader =
      (updateWeaksLoop s0 s0.chain).weakHeader := rfl
  obtain ⟨h1, h2⟩ := updateWeaksLoop_spec s0.chain s0 w hnd hw
  exact ⟨rfl, fun h => by rw [hobj]; exact h1 h,
    fun h => by rw [hobj, hhd]; exact h2 h⟩

/-- Helper for C8: the collection branch runs (and records its single actual
argument, the desired scope) exactly when `forceGC` is set or the desired
scope is at most the heap's level. -/
theorem collectBranch_called_eq (O : EnsureOracles) (forceGC : Bool) (s : MutatorState) :
    (collectBranch O forceGC s).2 =
      (if forceGC = true ∨ O.desiredScope ≤ s.hh.hlevel then some O.desiredScope else none) := by
  unfold collectBranch
  by_cases h : forceGC = true ∨ O.desiredScope ≤ s.hh.hlevel
  · rw [if_pos h]
    have hb : (forceGC || decide (O.desiredScope ≤ s.hh.hlevel)) = true := by
      rcases h with h | h
      · rw [h, Bool.true_or]
      · rw [decide_eq_true h, Bool.or_true]
    rw [if_pos hb]
  · rw [if_neg h]
    have hb : ¬ ((forceGC || decide (O.desiredScope ≤ s.hh.hlevel)) = true) := by
      simp only [Bool.or_eq_true, decide_eq_true_eq]
      exact h
    rw [if_neg hb]

/-- Helper for C8: when the collection branch fires, it zeroes
`bytesAllocatedSinceLastCollection` and republishes the mutator frontier,
limit-plus-slop and limit from `hh->lastAllocatedChunk` (NULL when
everything was collected). -/
theorem collectBranch_effect (O : EnsureOracles) (forceGC : Bool) (s : MutatorState)
    (h : forceGC = true ∨ O.desiredScope ≤ s.hh.hlevel) :
    (collectBranch O forceGC s).1.hh =
      { O.collectLocal O.desiredScope s.hh with bytesAllocatedSinceLastCollection := 0 } ∧
    (collectBranch O forceGC s).1.frontier =
      ((collectBranch O forceGC s).1.hh.lastAllocatedChunk).map (fun c => c.frontier) ∧
    (collectBranch O forceGC s).1.limitPlusSlop =
      ((collectBranch O forceGC s).1.hh.lastAllocatedChunk).map (fun c => c.limit) ∧
    (collectBranch O forceGC s).1.limit =
      ((collectBranch O forceGC s).1.hh.lastAllocatedChunk).map
        (fun c => c.limit - GC_HEAP_LIMIT_SLOP) := by
  have hb : (forceGC || decide (O.desiredScope ≤ s.hh.hlevel)) = true := by
    rcases h with h | h
    · rw [h, Bool.true_or]
    · rw [decide_eq_true h, Bool.or_true]
  rcases hL : (O.collectLocal O.desiredScope s.hh).lastAllocatedChunk with _ | c
  · have hstep : collectBranch O forceGC s =
        ({ s with
            hh := { O.collectLocal O.desiredScope s.hh with
              bytesAllocatedSinceLastCollection := 0 },
            frontier := none, limitPlusSlop := none, limit := none },
          some O.desiredScope) := by
      unfold collectBranch
      rw [if_pos hb]
      simp only [hL]
    rw [hstep]
    refine ⟨rfl, ?_, ?_, ?_⟩
    · simp [hL]
    · simp [hL]
    · simp [hL]
  · have hstep : collectBranch O forceGC s =
        ({ s with
            hh := { O.collectLocal O.desiredScope s.hh with
              bytesAllocatedSinceLastCollection := 0 },
            frontier := some c.frontier,
            limitPlusSlop := some c.limit,
            limit := some (c.limit - GC_HEAP_LIMIT_SLOP) },
          some O.desiredScope) := by
      unfold collectBranch
      rw [if_pos hb]
      simp only [hL]
    rw [hstep]
    refine ⟨rfl, ?_, ?_, ?_⟩
    · simp [hL]
    · simp [hL]
    · simp [hL]

/-- C8: when the entry fatal check passes, `HM_ensureHierarchicalHeapAssurances`
records a collector invocation exactly when `forceGC` is set or the desired
scope is at most `hh.level`; the recorded call carries only the desired
scope, because the source call site `HM_HHC_collectLocal(desiredScope)`
passes a single actual argument to the two-parameter collector (the `force`
flag is not forwarded — the divergence from the claim).  When the branch
fires it zeroes `bytesAllocatedSinceLastCollection` and republishes the
frontier and limits from `hh.lastAllocatedChunk`, or NULLs when everything
was collected. -/
theorem ensureAssurances_collect_spec (O : EnsureOracles) (forceGC : Bool)
    (bytesRequested : Nat) (ensureCurrentLevel : Bool) (s0 : MutatorState)
    (hdie : ¬ (s0.limitPlusSlop.getD 0 < s0.frontier.getD 0)) :
    (HM_ensureHierarchicalHeapAssurances O forceGC bytesRequested
        ensureCurrentLevel s0).collectCalledWith =
      (if forceGC = true ∨ O.desiredScope ≤ s0.hh.hlevel
        then some O.desiredScope else none) ∧
    (forceGC = true ∨ O.desiredScope ≤ s0.hh.hlevel →
      (collectBranch O forceGC
          { s0 with hh := HM_HH_updateValues s0.hh s0.frontier }).1.hh =
        { O.collectLocal O.desiredScope (HM_HH_updateValues s0.hh s0.frontier) with
          bytesAllocatedSinceLastCollection := 0 } ∧
      (collectBranch O forceGC
          { s0 with hh := HM_HH_updateValues s0.hh s0.frontier }).1.frontier =
        ((collectBranch O forceGC
          { s0 with hh := HM_HH_updateValues s0.hh s0.frontier }).1.hh.lastAllocatedChunk).map
          (fun c => c.frontier) ∧
      (collectBranch O forceGC
          { s0 with hh := HM_HH_updateValues s0.hh s0.frontier }).1.limitPlusSlop =
        ((collectBranch O forceGC
          { s0 with hh := HM_HH_updateValues s0.hh s0.frontier }).1.hh.lastAllocatedChunk).map
          (fun c => c.limit) ∧
      (collectBranch O forceGC
          { s0 with hh := HM_HH_updateValues s0.hh s0.frontier }).1.limit =
        ((collectBranch O forceGC
          { s0 with hh := HM_HH_updateValues s0.hh s0.frontier }).1.hh.lastAllocatedChunk).map
          (fun c => c.limit - GC_HEAP_LIMIT_SLOP)) := by
  constructor
  · have hdie2 : ¬ ((({ s0 with hh := HM_HH_updateValues s0.hh s0.frontier } :
        MutatorState).limitPlusSlop.getD 0 <
        ({ s0 with hh := HM_HH_updateValues s0.hh s0.frontier } :
          MutatorState).frontier.getD 0)) := hdie
    unfold HM_ensureHierarchicalHeapAssurances
    rw [if_neg hdie2]
    exact collectBranch_called_eq O forceGC _
  · intro h
    exact collectBranch_effect O forceGC _ h

/-- Witness for C4: relocating the level-2 single-object chunk 7 holding
objptr 10: the address is unchanged, no forwarding pointer appears, exactly
one object moves, and to-space level 2 ends with chunk 7 and a fresh slop
chunk. -/
theorem forwardHHObjptr_singleObjectChunk_fastpath_witness :
    ∃ st2,
      forwardHHObjptr objModelEx fwdArgsEx 1 false fwdStateEx 10 = .ok (10, st2) ∧
      (st2.heap 10).fwd = none ∧
      st2.objectsMoved = fwdStateEx.objectsMoved + 1 ∧
      st2.bytesMoved = fwdStateEx.bytesMoved +
        ({ tag := .NORMAL_TAG, objectSize := 24, copySize := 24,
           metaDataSize := 8 } : CopyParams).copySize ∧
      st2.objectsCopied = fwdStateEx.objectsCopied ∧
      st2.bytesCopied = fwdStateEx.bytesCopied ∧
      (∀ l, (fwdStateEx.heap 10).chunkId ∉ st2.hhLevel l) ∧
      ∃ tl2 freshId,
        st2.toSpace (fwdStateEx.heap 10).level = some tl2 ∧
        tl2.chunks =
          (match fwdStateEx.toSpace (fwdStateEx.heap 10).level with
            | some tl => tl.chunks
            | none => [fwdStateEx.nextChunkId]) ++
            [(fwdStateEx.heap 10).chunkId, freshId] ∧
        st2.chunkSizeOf freshId = GC_HEAP_LIMIT_SLOP :=
  forwardHHObjptr_singleObjectChunk_fastpath objModelEx fwdArgsEx 1 false fwdStateEx 10
    { tag := .NORMAL_TAG, objectSize := 24, copySize := 24, metaDataSize := 8 }
    (.normal 8 1)
    (by decide) (by decide) (by decide) (by decide) (by decide) (by decide)
    (by decide) (by decide) (by decide)

/-- Witness for C6: a stack with `reserved = 10`, `used = 4` under the
example object model (no shrink, since the hint returns 12). -/
theorem computeObjectCopyParameters_stack_spec_witness :
    ∃ cp st2,
      computeObjectCopyParameters objModelEx true (.stack ⟨10, 4⟩) =
        some (cp, .stack st2) ∧
      st2.reserved ≤ (⟨10, 4⟩ : GCStack).reserved ∧
      st2.used = (⟨10, 4⟩ : GCStack).used ∧
      st2.reserved = (if objModelEx.sizeofStackShrinkReserved ⟨10, 4⟩ true <
          (⟨10, 4⟩ : GCStack).reserved
        then objModelEx.sizeofStackShrinkReserved ⟨10, 4⟩ true
        else (⟨10, 4⟩ : GCStack).reserved) ∧
      cp.objectSize = cp.metaDataSize + objModelEx.sizeofGCStackStruct + st2.reserved ∧
      cp.copySize = cp.metaDataSize + objModelEx.sizeofGCStackStruct + st2.used :=
  computeObjectCopyParameters_stack_spec objModelEx true ⟨10, 4⟩

/-- Witness for C10: the sizes computed for that stack satisfy
`copySize ≤ objectSize`. -/
theorem computeObjectCopyParameters_copy_le_witness :
    ({ tag := .STACK_TAG, objectSize := 58, copySize := 52,
       metaDataSize := 8 } : CopyParams).copySize ≤
      ({ tag := .STACK_TAG, objectSize := 58, copySize := 52,
         metaDataSize := 8 } : CopyParams).objectSize ∧
    ((({ tag := .STACK_TAG, objectSize := 58, copySize := 52,
         metaDataSize := 8 } : CopyParams).tag = .NORMAL_TAG ∨
      ({ tag := .STACK_TAG, objectSize := 58, copySize := 52,
         metaDataSize := 8 } : CopyParams).tag = .SEQUENCE_TAG) →
      ({ tag := .STACK_TAG, objectSize := 58, copySize := 52,
         metaDataSize := 8 } : CopyParams).copySize =
        ({ tag := .STACK_TAG, objectSize := 58, copySize := 52,
           metaDataSize := 8 } : CopyParams).objectSize) :=
  computeObjectCopyParameters_copy_le objModelEx true (.stack ⟨10, 4⟩)
    { tag := .STACK_TAG, objectSize := 58, copySize := 52, metaDataSize := 8 }
    (.stack ⟨10, 4⟩) (by decide)
    (fun st h => by cases h; exact ⟨by decide, by decide⟩)

/-- Witness for C7: weak 0 (forwarded referent) on the example chain. -/
theorem updateWeaksForCheneyCopy_spec_witness :
    (updateWeaksForCheneyCopy weakStateEx).chain = [] ∧
    (weakStateEx.refHeader (weakStateEx.weakObjptr 0) = GC_FORWARDED →
      (updateWeaksForCheneyCopy weakStateEx).weakObjptr 0 =
        weakStateEx.refFwd (weakStateEx.weakObjptr 0)) ∧
    (weakStateEx.refHeader (weakStateEx.weakObjptr 0) ≠ GC_FORWARDED →
      (updateWeaksForCheneyCopy weakStateEx).weakHeader 0 = GC_WEAK_GONE_HEADER ∧
      (updateWeaksForCheneyCopy weakStateEx).weakObjptr 0 = BOGUS_OBJPTR) :=
  updateWeaksForCheneyCopy_spec weakStateEx 0 (by decide) (by decide)

/-- Witness for C8: on the example state (scope 1 ≤ level 2, no force) the
facade records the collector invocation with the desired scope, and the
branch resets the allocation counter and republishes the frontier. -/
theorem ensureAssurances_collect_spec_witness :
    (HM_ensureHierarchicalHeapAssurances ensureOraclesEx false 0 false
        mutatorStateEx).collectCalledWith =
      (if false = true ∨ ensureOraclesEx.desiredScope ≤ mutatorStateEx.hh.hlevel
        then some ensureOraclesEx.desiredScope else none) ∧
    (false = true ∨ ensureOraclesEx.desiredScope ≤ mutatorStateEx.hh.hlevel →
      (collectBranch ensureOraclesEx false
          { mutatorStateEx with
            hh := HM_HH_updateValues mutatorStateEx.hh mutatorStateEx.frontier }).1.hh =
        { ensureOraclesEx.collectLocal ensureOraclesEx.desiredScope
            (HM_HH_updateValues mutatorStateEx.hh mutatorStateEx.frontier) with
          bytesAllocatedSinceLastCollection := 0 } ∧
      (collectBranch ensureOraclesEx false
          { mutatorStateEx with
            hh := HM_HH_updateValues mutatorStateEx.hh mutatorStateEx.frontier }).1.frontier =
        ((collectBranch ensureOraclesEx false
          { mutatorStateEx with
            hh := HM_HH_updateValues mutatorStateEx.hh
              mutatorStateEx.frontier }).1.hh.lastAllocatedChunk).map
          (fun c => c.frontier) ∧
      (collectBranch ensureOraclesEx false
          { mutatorStateEx with
            hh := HM_HH_updateValues mutatorStateEx.hh mutatorStateEx.frontier }).1.limitPlusSlop =
        ((collectBranch ensureOraclesEx false
          { mutatorStateEx with
            hh := HM_HH_updateValues mutatorStateEx.hh
              mutatorStateEx.frontier }).1.hh.lastAllocatedChunk).map
          (fun c => c.limit) ∧
      (collectBranch ensureOraclesEx false
          { mutatorStateEx with
            hh := HM_HH_updateValues mutatorStateEx.hh mutatorStateEx.frontier }).1.limit =
        ((collectBranch ensureOraclesEx false
          { mutatorStateEx with
            hh := HM_HH_updateValues mutatorStateEx.hh
              mutatorStateEx.frontier }).1.hh.lastAllocatedChunk).map
          (fun c => c.limit - GC_HEAP_LIMIT_SLOP)) :=
  ensureAssurances_collect_spec ensureOraclesEx false 0 false mutatorStateEx (by decide)
